import Mathlib

/-!
Verification development for the cc-sessions admission gate.

This file shallowly embeds the PreToolUse enforcement pipeline of
`cc_sessions/python/hooks/sessions_enforce.py` (the DAIC admission gate),
the branch-consistency scenario logic it contains, the path classification
helper `is_work_artifact_path`, the shell-command read-only classifier
`is_bash_read_only` (together with the Python `re`/`shlex` behaviour it
relies on), and the DAIC mode reader `check_daic_mode_bool` of
`cc_sessions/hooks/shared_state.py`.

Python strings are modelled as `List Char` (wrapped in `String` at the
boundaries); file contents and subprocess results are modelled as explicit
inputs; `sys.exit(0)` / `sys.exit(2)` become an `allow` / `block` decision
paired with the resulting persisted state.
-/

namespace CcSessions

/-! ## Python string helpers -/

/-- Python's `\s` (and `str.strip`) whitespace set, restricted to ASCII:
space, tab, newline, carriage return, vertical tab, form feed. -/
def pyIsSpace (c : Char) : Bool :=
  c = ' ' || c = '\t' || c = '\n' || c = '\r' || c = '\x0b' || c = '\x0c'

/-- `str.strip()` on a character list: drop leading and trailing whitespace. -/
def pyStrip (l : List Char) : List Char :=
  ((l.dropWhile pyIsSpace).reverse.dropWhile pyIsSpace).reverse

/-- `str.strip()` at the `String` level. -/
def pyStripS (s : String) : String :=
  String.mk (pyStrip s.toList)

/-- Python's substring containment `needle in hay` on character lists. -/
def substrL (needle : List Char) : List Char → Bool
  | [] => needle.isEmpty
  | c :: t => needle.isPrefixOf (c :: t) || substrL needle t

/-- Python's substring containment at the `String` level. -/
def substrS (needle hay : String) : Bool :=
  substrL needle.toList hay.toList

/-- `str.lower()` on one character (ASCII, which covers every name the
classifier compares against). -/
def lowerC (c : Char) : Char := c.toLower

/-- `str.lower()` on a character list. -/
def lowerL (l : List Char) : List Char := l.map lowerC

/-- `str.startswith(pre)` on character lists. -/
def startsWithL (pre l : List Char) : Bool := pre.isPrefixOf l

/-- The single-quote character (written by code point to keep the source
free of quote-escape sequences). -/
def squote : Char := Char.ofNat 39

/-! ## The `REDIR` regular expression

`sessions_enforce.py` compiles
`(?:^|\s)(?:>>?|<<?|<<<)\s | (?:^|\s)\d*>&?\d*(?:\s|$) | (?:^|\s)&>`
and uses `REDIR.search`.  We model `search` as: some position that is the
start of the string or preceded by a whitespace character matches one of
the three alternatives. -/

/-- Drop a maximal run of decimal digits (`\d*`). -/
def dropDigits (l : List Char) : List Char := l.dropWhile Char.isDigit

/-- `(?:\s|$)`: end of input or a whitespace character next. -/
def endOrSpace : List Char → Bool
  | [] => true
  | c :: _ => pyIsSpace c

/-- The `>`-half of `(?:>>?|<<?|<<<)\s` at the current position, with
backtracking over the optional second `>`. -/
def gtMatch : List Char → Bool
  | [] => false
  | c :: rest =>
    c = '>' &&
      (match rest with
       | [] => false
       | d :: rest2 =>
         (d = '>' &&
           (match rest2 with
            | [] => false
            | e :: _ => pyIsSpace e)) || pyIsSpace d)

/-- Tail of the `<`-alternatives after two `<` have been read. -/
def ltTail2 : List Char → Bool
  | [] => false
  | e :: rest3 =>
    (e = '<' &&
      (match rest3 with
       | [] => false
       | f :: _ => pyIsSpace f)) || pyIsSpace e

/-- Tail of the `<`-alternatives after one `<` has been read. -/
def ltTail : List Char → Bool
  | [] => false
  | d :: rest2 => (d = '<' && ltTail2 rest2) || pyIsSpace d

/-- The `<`-half of `(?:>>?|<<?|<<<)\s` at the current position (`<`,
`<<` or `<<<` followed by whitespace, with regex backtracking). -/
def ltMatch : List Char → Bool
  | [] => false
  | c :: rest => c = '<' && ltTail rest

/-- `\d*>&?\d*(?:\s|$)` at the current position (both choices of the
optional `&` are tried, as the regex engine would). -/
def pat2At (l : List Char) : Bool :=
  match dropDigits l with
  | [] => false
  | c :: rest =>
    c = '>' &&
      ((rest.head? = some '&' && endOrSpace (dropDigits rest.tail)) ||
        endOrSpace (dropDigits rest))

/-- `&>` at the current position. -/
def pat3At : List Char → Bool
  | c :: d :: _ => c = '&' && d = '>'
  | _ => false

/-- Any of the three alternatives at the current (boundary) position. -/
def redirAt (l : List Char) : Bool :=
  gtMatch l || ltMatch l || pat2At l || pat3At l

/-- Positions strictly after the first character: a boundary exists after
each whitespace character. -/
def redirSearchGo : List Char → Bool
  | [] => false
  | c :: rest => (pyIsSpace c && redirAt rest) || redirSearchGo rest

/-- `REDIR.search(l) is not None`. -/
def redirSearch (l : List Char) : Bool :=
  redirAt l || redirSearchGo l

/-! ## The segment splitter

`re.split(r'(?<!\|)\|(?!\|)|&&|\|\|', s)`: alternatives are tried in
order at each position; a single `|` splits only when not adjacent to
another `|`; `&&` and `||` split as two-character separators. -/

/-- Scanner for the split regex.  `prev` is the character just before the
scan position (for the `(?<!\|)` look-behind), `acc` the current piece in
reverse.  At a `|`, the single-`|` alternative applies when neither
neighbour is a `|`; otherwise the two-character `||` alternative applies
when a second `|` follows; `&&` always splits. -/
def splitSegsGo (prev : Option Char) (acc : List Char) : List Char → List (List Char)
  | [] => [acc.reverse]
  | [c] =>
    if c = '|' then
      if prev ≠ some '|' then [acc.reverse, []] else [('|' :: acc).reverse]
    else [(c :: acc).reverse]
  | c :: d :: rest =>
    if c = '|' then
      if d = '|' then acc.reverse :: splitSegsGo (some '|') [] rest
      else if prev ≠ some '|' then acc.reverse :: splitSegsGo (some '|') [] (d :: rest)
      else splitSegsGo (some '|') ('|' :: acc) (d :: rest)
    else if c = '&' then
      if d = '&' then acc.reverse :: splitSegsGo (some '&') [] rest
      else splitSegsGo (some c) (c :: acc) (d :: rest)
    else
      splitSegsGo (some c) (c :: acc) (d :: rest)

/-- `re.split(r'(?<!\|)\|(?!\|)|&&|\|\|', s)`. -/
def splitSegs (l : List Char) : List (List Char) :=
  splitSegsGo none [] l

/-! ## `shlex.split` (POSIX mode, whitespace splitting)

Whitespace separates tokens; a backslash escapes the next character;
single quotes are literal; inside double quotes a backslash escapes only
`"` and `\`.  An unterminated quote or a trailing backslash raises
`ValueError`, modelled as `none`. -/

/-- The `shlex` whitespace set (space, tab, carriage return, newline). -/
def shlexWs (c : Char) : Bool :=
  c = ' ' || c = '\t' || c = '\r' || c = '\n'

/-- Lexer state of the `shlex` scanner: outside quotes, after a
backslash, inside single quotes, inside double quotes, and after a
backslash inside double quotes. -/
inductive LexMode where
  | plain
  | escChar
  | single
  | double
  | doubleEsc
deriving DecidableEq, Repr

/-- Main `shlex` scanner as a character-state machine. `tok` is the
current token in reverse, `inTok` records whether a token has been
started (so quotes may produce empty tokens).  Running out of input in
any non-`plain` state models the corresponding `ValueError`. -/
def shlexRun (mode : LexMode) (tok : List Char) (inTok : Bool) :
    List Char → Option (List (List Char))
  | [] =>
    match mode with
    | .plain => some (if inTok then [tok.reverse] else [])
    | _ => none
  | c :: rest =>
    match mode with
    | .plain =>
      if shlexWs c then
        if inTok then (shlexRun .plain [] false rest).map (tok.reverse :: ·)
        else shlexRun .plain [] false rest
      else if c = '\\' then shlexRun .escChar tok inTok rest
      else if c = squote then shlexRun .single tok true rest
      else if c = '"' then shlexRun .double tok true rest
      else shlexRun .plain (c :: tok) true rest
    | .escChar => shlexRun .plain (c :: tok) true rest
    | .single =>
      if c = squote then shlexRun .plain tok true rest
      else shlexRun .single (c :: tok) true rest
    | .double =>
      if c = '"' then shlexRun .plain tok true rest
      else if c = '\\' then shlexRun .doubleEsc tok true rest
      else shlexRun .double (c :: tok) true rest
    | .doubleEsc =>
      if c = '"' || c = '\\' then shlexRun .double (c :: tok) true rest
      else shlexRun .double (c :: '\\' :: tok) true rest

/-- `shlex.split(segment)` (POSIX mode); `none` models a `ValueError`. -/
def shlexSplit (l : List Char) : Option (List (List Char)) :=
  shlexRun .plain [] false l

/-! ## Configuration

`sessions_enforce.py` loads a `CONFIG` whose `blocked_actions` section
carries custom read/write command lists, the `extrasafe` toggle and the
tool block list, and whose `features` section carries the
branch-enforcement switch.  The config class itself lives in the package's
`shared_state` module. -/

/-- Modelled from the spec: the `blocked_actions` configuration section of
the missing `shared_state` module (custom read/write command lists, the
"extra-safe unknown-command" toggle, and the list of tools blocked outside
Implementation mode, queried through `is_tool_blocked`). -/
structure BlockedActions where
  implementationOnlyTools : List String
  bashReadPatterns : List String
  bashWritePatterns : List String
  extrasafe : Option Bool
deriving DecidableEq, Repr

/-- Modelled from the spec: the `features` configuration section
(branch-enforcement on/off). -/
structure Features where
  branchEnforcement : Bool
deriving DecidableEq, Repr

/-- Modelled from the spec: the configuration document the gate loads once
per invocation. -/
structure Config where
  blockedActions : BlockedActions
  features : Features
deriving DecidableEq, Repr

/-- Modelled from the spec: `CONFIG.blocked_actions.is_tool_blocked`,
membership in the configured implementation-only tool list (defaults per
`DEFAULT_CONFIG` in `workflow_manager.py`). -/
def isToolBlocked (cfg : Config) (toolName : String) : Bool :=
  cfg.blockedActions.implementationOnlyTools.contains toolName

/-- The effective `extrasafe` flag:
`CONFIG.blocked_actions.extrasafe if ... is not None else True`. -/
def effExtrasafe (cfg : Config) : Bool :=
  cfg.blockedActions.extrasafe.getD true

/-- The default configuration (safe defaults when the config file is
absent, per `DEFAULT_CONFIG` and the test fixtures). -/
def defaultConfig : Config :=
  { blockedActions :=
      { implementationOnlyTools := ["Edit", "Write", "MultiEdit", "NotebookEdit"]
        bashReadPatterns := []
        bashWritePatterns := []
        extrasafe := none }
    features := { branchEnforcement := true } }

/-! ## The command-name sets (`READONLY_FIRST`, `WRITE_FIRST`) -/

/-- The built-in `READONLY_FIRST` set of `sessions_enforce.py`,
transcribed verbatim. -/
def readonlyFirstBase : List String :=
  ["cat", "less", "more", "head", "tail", "wc", "nl", "tac", "rev",
   "grep", "egrep", "fgrep", "rg", "ripgrep", "ag", "ack",
   "sort", "uniq", "cut", "paste", "join", "comm", "column",
   "tr", "expand", "unexpand", "fold", "fmt", "pr", "shuf", "tsort",
   "diff", "cmp", "sdiff", "vimdiff",
   "md5sum", "sha1sum", "sha256sum", "sha512sum", "cksum", "sum",
   "od", "hexdump", "xxd", "strings", "file", "readelf", "objdump", "nm",
   "ls", "dir", "vdir", "pwd", "which", "type", "whereis", "locate", "find",
   "basename", "dirname", "readlink", "realpath", "stat",
   "whoami", "id", "groups", "users", "who", "w", "last", "lastlog",
   "hostname", "uname", "arch", "lsb_release", "hostnamectl",
   "date", "cal", "uptime", "df", "du", "free", "vmstat", "iostat",
   "ps", "pgrep", "pidof", "top", "htop", "iotop", "atop",
   "lsof", "jobs", "pstree", "fuser",
   "netstat", "ss", "ip", "ifconfig", "route", "arp",
   "ping", "traceroute", "tracepath", "mtr", "nslookup", "dig", "host", "whois",
   "printenv", "env", "set", "export", "alias", "history", "fc",
   "echo", "printf", "yes", "seq", "jot",
   "test", "[", "[[", "true", "false",
   "bc", "dc", "expr", "factor", "units",
   "jq", "yq", "xmlstarlet", "xmllint", "xsltproc",
   "bat", "fd", "fzf", "tree", "ncdu", "exa", "lsd",
   "tldr", "cheat",
   "ast-grep", "sg", "ast_grep",
   "awk", "sed", "gawk", "mawk", "gsed"]

/-- The built-in `WRITE_FIRST` set of `sessions_enforce.py`, transcribed
verbatim. -/
def writeFirstBase : List String :=
  ["rm", "rmdir", "unlink", "shred",
   "mv", "rename", "cp", "install", "dd",
   "mkdir", "mkfifo", "mknod", "mktemp", "touch", "truncate",
   "chmod", "chown", "chgrp", "umask",
   "ln", "link", "symlink",
   "setfacl", "setfattr", "chattr",
   "useradd", "userdel", "usermod", "groupadd", "groupdel",
   "passwd", "chpasswd", "systemctl", "service",
   "apt", "apt-get", "dpkg", "snap", "yum", "dnf", "rpm",
   "pip", "pip3", "npm", "yarn", "gem", "cargo",
   "make", "cmake", "ninja", "meson",
   "sudo", "doas", "su", "crontab", "at", "batch",
   "kill", "pkill", "killall", "tee"]

/-- `READONLY_FIRST` after `READONLY_FIRST.update(... bash_read_patterns)`. -/
def readonlyFirst (cfg : Config) : List String :=
  readonlyFirstBase ++ cfg.blockedActions.bashReadPatterns

/-- `WRITE_FIRST` after `WRITE_FIRST.update(... bash_write_patterns)`. -/
def writeFirst (cfg : Config) : List String :=
  writeFirstBase ++ cfg.blockedActions.bashWritePatterns

/-! ## `check_command_arguments` -/

/-- A quote character (the `["\']` character class of the awk checks). -/
def awkQuote (c : Char) : Bool := c = '"' || c = squote

/-- `.*["\']`: some quote character lies ahead with only non-newline
characters before it. -/
def dotStarQuote : List Char → Bool
  | [] => false
  | c :: rest => if awkQuote c then true else if c = '\n' then false else dotStarQuote rest

/-- `\s*["\'].*["\']` at the current position. -/
def quoteAfterSpaces (l : List Char) : Bool :=
  match l.dropWhile pyIsSpace with
  | [] => false
  | q :: r2 => awkQuote q && dotStarQuote r2

/-- `re.search(r'>\s*["\'].*["\']', script)`. -/
def gtQuoteSearch : List Char → Bool
  | [] => false
  | c :: rest => (c = '>' && quoteAfterSpaces rest) || gtQuoteSearch rest

/-- `re.search(r'>>\s*["\'].*["\']', script)`. -/
def ggtQuoteSearch : List Char → Bool
  | [] => false
  | c :: rest =>
    (c = '>' &&
      (match rest with
       | [] => false
       | d :: rest2 => d = '>' && quoteAfterSpaces rest2)) || ggtQuoteSearch rest

/-- The awk-script write tests: the two quoted-redirection regexes plus
the four literal substring checks, in source order. -/
def awkWriteScript (script : List Char) : Bool :=
  gtQuoteSearch script || ggtQuoteSearch script ||
    substrL ("print >").toList script || substrL ("print >>").toList script ||
    substrL ("printf >").toList script || substrL ("printf >>").toList script

/-- `' '.join(args)`. -/
def joinSpace : List (List Char) → List Char
  | [] => []
  | [a] => a
  | a :: b :: t => a ++ ' ' :: joinSpace (b :: t)

/-- The `find -exec`/`-execdir` scan: some `-exec`-like argument followed
by a program that is write-like. -/
def findExecWrite (cfg : Config) : List (List Char) → Bool
  | a :: b :: rest =>
    ((a = ("-exec").toList || a = ("-execdir").toList) &&
      ((writeFirst cfg).contains (String.mk (lowerL b)) ||
        (["rm", "mv", "cp", "shred"] : List String).contains (String.mk (lowerL b)))) ||
      findExecWrite cfg (b :: rest)
  | _ => false

/-- The `xargs ... sed -i` special case: the argument after the first
`sed` starts with `-i`. -/
def xargsSedI : List (List Char) → Bool
  | [] => false
  | a :: rest =>
    if a = ("sed").toList then
      match rest with
      | b :: _ => startsWithL ("-i").toList b
      | [] => false
    else xargsSedI rest

/-- `check_command_arguments(parts)`: `true` when the arguments show no
write operation (the function returns `True`), `false` otherwise. -/
def checkCommandArguments (cfg : Config) (parts : List (List Char)) : Bool :=
  match parts with
  | [] => true
  | first :: args =>
    let cmd := String.mk (lowerL first)
    if (cmd = "sed" || cmd = "gsed") &&
        args.any (fun a => startsWithL ("-i").toList a || a = ("--in-place").toList) then
      false
    else if (cmd = "awk" || cmd = "gawk" || cmd = "mawk") && awkWriteScript (joinSpace args) then
      false
    else if cmd = "find" &&
        (args.contains ("-delete").toList || findExecWrite cfg args) then
      false
    else if cmd = "xargs" &&
        ((writeFirst cfg).any (fun w => args.contains w.toList) || xargsSedI args) then
      false
    else true

/-! ## The per-segment body of `is_bash_read_only` -/

/-- One pass of the segment loop body over the `shlex` tokens: `true`
means the segment is acceptable (the Python loop `continue`s), `false`
means the whole classification returns `False`. -/
def segCheck (cfg : Config) (parts : List (List Char)) : Bool :=
  match parts with
  | [] => true
  | firstRaw :: args =>
    let first := String.mk (lowerL firstRaw)
    if first = "cd" then true
    else if first = "pip" || first = "pip3" then
      let sub := match args with
        | a :: _ => String.mk (lowerL a)
        | [] => ""
      (["show", "list", "search", "check", "freeze", "help"] : List String).contains sub
    else if first = "npm" || first = "yarn" then
      let sub := match args with
        | a :: _ => String.mk (lowerL a)
        | [] => ""
      (["list", "ls", "view", "show", "search", "help"] : List String).contains sub
    else if first = "python" || first = "python3" then
      match args with
      | a :: _ => a = ("-c").toList || a = ("-m").toList
      | [] => false
    else if (writeFirst cfg).contains first then false
    else if !checkCommandArguments cfg parts then false
    else if cfg.blockedActions.bashReadPatterns.contains first then true
    else if !(readonlyFirst cfg).contains first && effExtrasafe cfg then false
    else true

/-- The segment loop of `is_bash_read_only`: strip each raw segment, skip
empty ones, fail the whole command on a mutating segment, and return
`not extrasafe` for the whole command when `shlex` raises. -/
def loopSegs (cfg : Config) : List (List Char) → Bool
  | [] => true
  | segRaw :: rest =>
    let seg := pyStrip segRaw
    if seg.isEmpty then loopSegs cfg rest
    else
      match shlexSplit seg with
      | none => !effExtrasafe cfg
      | some parts => if segCheck cfg parts then loopSegs cfg rest else false

/-- `is_bash_read_only(command)` of `sessions_enforce.py`: strip; empty is
read-only; any `REDIR` match is mutating; otherwise split on `|`, `&&`,
`||` and vet every segment. -/
def is_bash_read_only (cfg : Config) (command : String) : Bool :=
  let s := pyStrip command.toList
  if s.isEmpty then true
  else if redirSearch s then false
  else loopSegs cfg (splitSegs s)

/-! ## Compound command lines (for the segment-wise classification law)

A compound line is a first segment joined to further segments by the
separators `|`, `&&`, `||` (written with a space on each side).  A
"plain" segment is non-empty, has no leading or trailing whitespace and
contains none of the special characters `|`, `&`, `<`, `>`, so that it
contributes no redirection and no extra split point. -/

/-- A segment separator. -/
inductive Sep where
  | pipe
  | andand
  | oror
deriving DecidableEq, Repr

/-- The separator text, with one space on each side. -/
def sepChars : Sep → List Char
  | .pipe => [' ', '|', ' ']
  | .andand => [' ', '&', '&', ' ']
  | .oror => [' ', '|', '|', ' ']

/-- The characters of the separators and segments after the first. -/
def joinRestL : List (Sep × List Char) → List Char
  | [] => []
  | (p, g) :: t => sepChars p ++ g ++ joinRestL t

/-- The joined compound command line. -/
def joinLine (s0 : String) (rest : List (Sep × String)) : String :=
  String.mk (s0.toList ++ joinRestL (rest.map (fun pg => (pg.1, pg.2.toList))))

/-- A character allowed in a plain segment (no `|`, `&`, `<`, `>`). -/
def segChar (c : Char) : Bool :=
  !(c = '|' || c = '&' || c = '<' || c = '>')

/-- Non-empty with a non-whitespace first character. -/
def headOkB : List Char → Bool
  | [] => false
  | c :: _ => !pyIsSpace c

/-- A plain segment: trimmed, non-empty, only plain characters. -/
def goodSegL (g : List Char) : Bool :=
  headOkB g && headOkB g.reverse && g.all segChar

/-- A plain segment at the `String` level. -/
def goodSeg (s : String) : Bool := goodSegL s.toList

/-- The classification a single already-stripped segment receives inside
the loop: empty segments pass, a `shlex` failure counts as write-like
(the extra-safe default), and otherwise the per-segment checks decide. -/
def pieceCore (cfg : Config) (s : List Char) : Bool :=
  if s.isEmpty then true
  else
    match shlexSplit s with
    | none => false
    | some parts => segCheck cfg parts

/-- The classification of a raw (unstripped) piece of the split. -/
def pieceOK (cfg : Config) (p : List Char) : Bool :=
  pieceCore cfg (pyStrip p)

/-- The pieces `re.split` produces from a joined compound line: the
running piece, then each later segment padded by a space on each side
(except after the final separator, where only the leading space
remains). -/
def expectedPieces (a : List Char) : List (Sep × List Char) → List (List Char)
  | [] => [a]
  | (_, g) :: t => (a ++ [' ']) :: expectedPieces (' ' :: g) t

/-- The look-behind character after scanning a segment. -/
def prevAfter (prev : Option Char) (g : List Char) : Option Char :=
  g.foldl (fun _ c => some c) prev

/-! ## Paths

A `pathlib.PurePosixPath` is modelled by its absoluteness flag and its
normalised component list (empty components and `.` are dropped, as
`pathlib` does). -/

structure PyPath where
  absolute : Bool
  parts : List String
deriving DecidableEq, Repr

/-- `str.split('/')` on a character list. -/
def splitSlash : List Char → List (List Char)
  | [] => [[]]
  | c :: rest =>
    if c = '/' then [] :: splitSlash rest
    else
      match splitSlash rest with
      | [] => [[c]]
      | h :: t => (c :: h) :: t

/-- `pre.isPrefixOf s` at the `String` level (a kernel-reducible
`startswith`). -/
def startsWithS (s pre : String) : Bool :=
  pre.toList.isPrefixOf s.toList

/-- `'/'.join(parts)` as a character list. -/
def joinParts : List String → List Char
  | [] => []
  | [a] => a.toList
  | a :: b :: t => a.toList ++ '/' :: joinParts (b :: t)

/-- `Path(s)` for a non-empty raw string. -/
def parsePath (s : String) : PyPath :=
  { absolute := startsWithS s "/"
    parts := ((splitSlash s.toList).map String.mk).filter (fun c => c ≠ "" && c ≠ ".") }

/-- `str(path)`. -/
def pstr (p : PyPath) : String :=
  if p.parts.isEmpty then (if p.absolute then "/" else ".")
  else String.mk ((if p.absolute then ['/'] else []) ++ joinParts p.parts)

/-- `path.name`. -/
def pathName (p : PyPath) : String :=
  p.parts.getLast?.getD ""

/-- `path.parent.name`. -/
def parentName (p : PyPath) : String :=
  p.parts.dropLast.getLast?.getD ""

/-- Whether `path.relative_to(root)` succeeds. -/
def relOk (root p : PyPath) : Bool :=
  root.absolute = p.absolute && root.parts.isPrefixOf p.parts

/-- `str(path.relative_to(root))` (meaningful when `relOk`). -/
def relStr (root p : PyPath) : String :=
  pstr { absolute := false, parts := p.parts.drop root.parts.length }

/-- The work-artifact directory allowlist of `is_work_artifact_path`. -/
def artifactPrefixes : List String :=
  ["sessions/", ".claude/", "docs/", "plans/", "notes/", "logs/"]

/-- `is_work_artifact_path(file_path)`: paths under the allowlisted
directories (relative to the project root) are work artifacts; when
`relative_to` raises, fall back to a plain substring test on the path
text. -/
def is_work_artifact_path (projectRoot : PyPath) : Option PyPath → Bool
  | none => false
  | some p =>
    let pathStr := pstr p
    if p.absolute then
      if relOk projectRoot p then
        artifactPrefixes.any (fun pre => startsWithS (relStr projectRoot p) pre)
      else
        artifactPrefixes.any (fun pre => substrS pre pathStr)
    else
      artifactPrefixes.any (fun pre => startsWithS pathStr pre)

/-! ## Workflow state

The session state document (`sessions/sessions-state.json`) as used by the
gate.  The `Mode` enum and the todo helpers live in the package's
`shared_state` module. -/

/-- Modelled from the spec: the `Mode` enum of the missing `shared_state`
module — `NO` is Discussion (the default), `GO` is Implementation, `PLAN`
is the nested plan mode; persisted as the strings used in the state file
(`"discussion"`, `"implementation"`, `"plan"`). -/
inductive Mode where
  | no
  | go
  | plan
deriving DecidableEq, Repr

/-- The persisted string value of a mode. -/
def modeValue : Mode → String
  | .no => "discussion"
  | .go => "implementation"
  | .plan => "plan"

/-- Parsing a persisted mode value; any unknown value falls back to
Discussion (the `ValueError` branch). -/
def modeOfValue (s : String) : Mode :=
  if s = "implementation" then .go
  else if s = "plan" then .plan
  else .no

/-- One todo item (only `content` and `status` matter to the gate). -/
structure Todo where
  content : String
  status : String
deriving DecidableEq, Repr

/-- Modelled from the spec: the todo store of the state document, with an
`active` list and a `stashed` list used by plan mode (an empty `stashed`
list is the falsy "nothing stashed" value). -/
structure TodosState where
  active : List Todo
  stashed : List Todo
deriving DecidableEq, Repr

/-- The `current_task` section of the state document. -/
structure CurrentTask where
  branch : Option String
  submodules : List String
deriving DecidableEq, Repr

/-- The `flags` section of the state document. -/
structure Flags where
  bypassMode : Bool
deriving DecidableEq, Repr

/-- The `metadata` keys used by plan-mode entry/exit (`plan_prev_mode`,
`plan_stashed_count`; absent keys are `none` / `0`). -/
structure Metadata where
  planPrevMode : Option String
  planStashedCount : Nat
deriving DecidableEq, Repr

/-- The session state document as read and rewritten by the gate. -/
structure SessionsState where
  mode : Mode
  currentTask : CurrentTask
  todos : TodosState
  flags : Flags
  metadata : Metadata
deriving DecidableEq, Repr

/-- Modelled from the spec: `todos.list_content('active')` — the ordered
sequence of `content` fields (also used for the incoming
`[t.get('content','') for t in todos]`). -/
def listContent (todos : List Todo) : List String :=
  todos.map (·.content)

/-! ## Plan-mode entry and exit -/

/-- Modelled from the spec: the tool name `CCTools.PLAN.value` (the
planning tool whose invocation enters plan mode). -/
def planToolValue : String := "PlanMode"

/-- Modelled from the spec: the tool name `CCTools.EXITPLANMODE.value`. -/
def exitPlanToolValue : String := "ExitPlanMode"

/-- Plan-mode entry: remember the previous mode once, stash a non-empty
active plan once (`stash_active` modelled from the spec: it moves the
active todos to the stash and reports how many it moved), switch to plan
mode. -/
def planEnter (s : SessionsState) : SessionsState :=
  let md :=
    if s.mode ≠ .plan ∧ s.metadata.planPrevMode = none then
      { s.metadata with planPrevMode := some (modeValue s.mode) }
    else s.metadata
  let stashNow := s.todos.active ≠ [] ∧ md.planStashedCount = 0 ∧ s.todos.stashed = []
  let todos' :=
    if stashNow then { active := [], stashed := s.todos.active }
    else s.todos
  let md' :=
    if stashNow ∧ s.todos.active.length ≠ 0 then
      { md with planStashedCount := s.todos.active.length }
    else md
  { s with mode := .plan, todos := todos', metadata := md' }

/-- Plan-mode exit: pop the remembered mode (defaulting to Discussion)
and the stash count, restore the stash if one was recorded
(`restore_stashed` modelled from the spec: the stashed plan is restored
verbatim), and collapse a remembered Implementation mode to Discussion. -/
def planExit (s : SessionsState) : SessionsState :=
  let prevVal := s.metadata.planPrevMode.getD (modeValue .no)
  let todos' :=
    if s.metadata.planStashedCount ≠ 0 then
      { active := s.todos.stashed, stashed := [] }
    else s.todos
  let target0 := modeOfValue prevVal
  let target := if target0 = .go then .no else target0
  { s with mode := target, todos := todos'
           metadata := { planPrevMode := none, planStashedCount := 0 } }

/-! ## Branch-consistency scenarios (lines 543–590) -/

/-- The four-way branch/submodule outcome. -/
inductive BranchOutcome where
  | consistent
  | wrongBranch
  | notDeclaredInTask
  | wrongBranchAndNotDeclared
deriving DecidableEq, Repr

/-- The scenario analysis of the git-branch/task-submodule enforcement
block: `in_task` is truthy membership of the repo name in the declared
submodules, forced to true for the workspace root repository; the four
scenarios follow the two booleans. -/
def branch_scenario (projectRoot repoPath : PyPath) (currentBranch expectedBranch : String)
    (submodules : List String) : BranchOutcome :=
  let submoduleName := pathName repoPath
  let branchCorrect := currentBranch = expectedBranch
  let inTask0 := ¬submodules.isEmpty ∧ submodules.contains submoduleName
  let inTask := if repoPath = projectRoot then True else inTask0
  if inTask ∧ branchCorrect then .consistent
  else if inTask ∧ ¬branchCorrect then .wrongBranch
  else if ¬inTask ∧ branchCorrect then .notDeclaredInTask
  else .wrongBranchAndNotDeclared

/-! ## The admission gate -/

/-- The gate's verdict: `allow` is `sys.exit(0)`, `block` is
`sys.exit(2)`. -/
inductive Decision where
  | allow
  | block
deriving DecidableEq, Repr

/-- A gate decision together with the state document as left on disk. -/
structure GateResult where
  decision : Decision
  state : SessionsState
deriving DecidableEq, Repr

/-- The request payload: `tool_input.get("command","")`,
`tool_input.get("file_path","")`, `tool_input.get("todos",[])`. -/
structure ToolInput where
  command : String
  filePath : String
  todos : List Todo
deriving DecidableEq, Repr

/-- The environment of one gate evaluation: the CI short-circuit, the
project root, and the results of `find_git_repo` and of the
`git branch --show-current` subprocess (`none` models the caught
subprocess exception, which warns and proceeds). -/
structure Env where
  ci : Bool
  projectRoot : PyPath
  gitRepo : Option PyPath
  gitBranch : Option String
deriving DecidableEq, Repr

/-- `file_path = Path(file_path_string) if file_path_string else None`. -/
def parseFilePath (s : String) : Option PyPath :=
  if s = "" then none else some (parsePath s)

/-- Whether a (possibly absent) path names a file `sessions-state.json`
directly inside a directory named `sessions`. -/
def namesStateFile : Option PyPath → Bool
  | none => false
  | some p => pathName p = "sessions-state.json" && parentName p = "sessions"

/-- The last stage of the branch enforcement: with the current branch in
hand (`none` is the caught subprocess failure, which warns and
proceeds), scenario 1 allows and the other three scenarios block. -/
def branchResultGate (root : PyPath) (state : SessionsState) (repo : PyPath)
    (expected : String) : Option String → GateResult
  | none => ⟨.allow, state⟩
  | some current =>
    match branch_scenario root repo current expected state.currentTask.submodules with
    | .consistent => ⟨.allow, state⟩
    | _ => ⟨.block, state⟩

/-- The repository stage of the branch enforcement: no enclosing git
repository means the guard does not apply. -/
def repoGate (env : Env) (state : SessionsState) (expected : String) :
    Option PyPath → GateResult
  | none => ⟨.allow, state⟩
  | some repo => branchResultGate env.projectRoot state repo expected env.gitBranch

/-- The expected-branch stage of the branch enforcement: a falsy expected
branch (absent or empty) or disabled enforcement means allow. -/
def branchGate (env : Env) (cfg : Config) (state : SessionsState) :
    Option String → GateResult
  | none => ⟨.allow, state⟩
  | some expected =>
    if expected = "" then ⟨.allow, state⟩
    else if ¬cfg.features.branchEnforcement then ⟨.allow, state⟩
    else repoGate env state expected env.gitRepo

/-- The tail of the pipeline after the TodoWrite handling: the no-path
early allow, the `Write`/`Edit`/`MultiEdit`/`NotebookEdit` state-file
guard, and the branch/submodule enforcement. -/
def tailGate (env : Env) (cfg : Config) (state : SessionsState) (toolName : String) :
    Option PyPath → GateResult
  | none => ⟨.allow, state⟩
  | some p =>
    if (toolName = "Write" ∨ toolName = "Edit" ∨ toolName = "MultiEdit" ∨
          toolName = "NotebookEdit") ∧
        pathName p = "sessions-state.json" ∧ parentName p = "sessions" ∧
        ¬state.flags.bypassMode then
      ⟨.block, state⟩
    else
      branchGate env cfg state state.currentTask.branch

/-- The PreToolUse admission gate of `sessions_enforce.py`, evaluated on
one request: CI short-circuit; plan-mode entry/exit; the Bash
Discussion/Plan handling (API-command allowance, read-only fast path,
write-like block); the Bash state-file guard; the Discussion/Plan
write-tool guard with its work-artifact allowance; the TodoWrite
plan-consistency guard (`store_todos` modelled from the spec: a
well-formed update replaces the active list and succeeds); then
`tailGate`. -/
def sessionsEnforce (env : Env) (cfg : Config) (state0 : SessionsState)
    (toolName : String) (inp : ToolInput) : GateResult :=
  if env.ci then ⟨.allow, state0⟩
  else if toolName = planToolValue ∧ ¬state0.flags.bypassMode then
    ⟨.allow, planEnter state0⟩
  else if toolName = exitPlanToolValue ∧ ¬state0.flags.bypassMode then
    ⟨.allow, planExit state0⟩
  else
    let command := pyStripS inp.command
    let filePath := parseFilePath inp.filePath
    if toolName = "Bash" ∧ (state0.mode = .no ∨ state0.mode = .plan) ∧
        ¬state0.flags.bypassMode then
      if command ≠ "" ∧ (substrS "sessions " command ∨
          substrS "python -m cc_sessions.scripts.api" command) then
        ⟨.allow, state0⟩
      else if ¬is_bash_read_only cfg command then ⟨.block, state0⟩
      else ⟨.allow, state0⟩
    else if toolName = "Bash" ∧ namesStateFile filePath ∧
        ¬is_bash_read_only cfg command then
      ⟨.block, state0⟩
    else if (state0.mode = .no ∨ state0.mode = .plan) ∧ ¬state0.flags.bypassMode then
      if (toolName = "Write" ∨ toolName = "Edit" ∨ toolName = "MultiEdit") ∧
          is_work_artifact_path env.projectRoot filePath then
        ⟨.allow, state0⟩
      else if isToolBlocked cfg toolName then ⟨.block, state0⟩
      else ⟨.allow, state0⟩
    else if toolName = "TodoWrite" ∧ ¬state0.flags.bypassMode then
      if state0.todos.active ≠ [] ∧
          listContent state0.todos.active ≠ listContent inp.todos then
        ⟨.block, { state0 with mode := .no
                               todos := { state0.todos with active := [] } }⟩
      else
        tailGate env cfg
          { state0 with todos := { state0.todos with active := inp.todos } }
          toolName filePath
    else
      tailGate env cfg state0 toolName filePath

/-! ## `check_daic_mode_bool` (`cc_sessions/hooks/shared_state.py`)

The reader opens `.claude/state/daic-mode.json`, parses it as JSON and
compares the `mode` field against `"discussion"`.  Only
`FileNotFoundError` and `json.JSONDecodeError` are caught (defaulting to
Discussion and writing the default back via `set_daic_mode(True)`); any
other error — an OS-level read failure such as `PermissionError`, or the
`AttributeError` raised by `.get` when the file holds valid JSON that is
not an object — propagates. -/

/-- The parsed content of the mode state file: a JSON object with an
optional string-valued `mode` field (a non-string `mode` value compares
unequal to `"discussion"` and is covered by a distinct string), or valid
JSON that is not an object. -/
inductive JsonDoc where
  | dict (modeField : Option String)
  | nonDict
deriving DecidableEq, Repr

/-- The result of attempting to read the mode state file. -/
inductive StateFileRead where
  | content (doc : JsonDoc)
  | notJson
  | missing
  | ioError
deriving DecidableEq, Repr

/-- The Python exceptions that can escape `check_daic_mode_bool`. -/
inductive PyExc where
  | attributeError
  | osError
deriving DecidableEq, Repr

/-- `check_daic_mode_bool()`: the returned flag is `True` for Discussion;
the second component records whether the Discussion default was written
back (`set_daic_mode(True)`).  `missing` and `notJson` hit the
`except (FileNotFoundError, json.JSONDecodeError)` handler; a non-object
document raises `AttributeError` at `data.get`; an OS-level read failure
raises its `OSError`. -/
def check_daic_mode_bool : StateFileRead → Except PyExc (Bool × Bool)
  | .content (.dict m) => .ok (decide (m.getD "discussion" = "discussion"), false)
  | .content .nonDict => .error .attributeError
  | .notJson => .ok (true, true)
  | .missing => .ok (true, true)
  | .ioError => .error .osError

/-! ## Concrete fixtures used by witnesses and counterexamples -/

/-- A baseline environment: not CI, project root `/proj`, no git
information. -/
def baseEnv : Env :=
  { ci := false, projectRoot := parsePath "/proj", gitRepo := none, gitBranch := none }

/-- A baseline state: Discussion mode, no task, no todos, bypass off. -/
def baseState : SessionsState :=
  { mode := .no
    currentTask := { branch := none, submodules := [] }
    todos := { active := [], stashed := [] }
    flags := { bypassMode := false }
    metadata := { planPrevMode := none, planStashedCount := 0 } }

/-- A pending todo with the given content. -/
def mkTodo (c : String) : Todo := { content := c, status := "pending" }

/-- Discussion-or-Implementation state holding the agreed todos A, B. -/
def stateTodosAB (m : Mode) : SessionsState :=
  { baseState with mode := m
                   todos := { active := [mkTodo "A", mkTodo "B"], stashed := [] } }

end CcSessions

namespace CcSessions

/-! ## Claim theorems -/

/-- Claim C1 (code bug): the spec's standing invariant says a mutation of
`sessions/sessions-state.json` through any tool is blocked in every mode,
but in Discussion mode (bypass off) a `Write` whose `file_path` is
`sessions/sessions-state.json` is admitted (exit 0): the work-artifact
branch accepts any `sessions/`-prefixed path before the state-file guard
is reached. -/
theorem claim_C1_state_file_write_admitted :
    sessionsEnforce baseEnv defaultConfig baseState "Write"
      { command := "", filePath := "sessions/sessions-state.json", todos := [] } =
      ⟨.allow, baseState⟩ := by decide

/-- Claim C2 (counterexample): the claim says every command line
containing an output redirection classifies as mutating "including forms
with no space after the operator such as `echo hi >out.txt`"; but the
`REDIR` patterns require whitespace after the operator, so that very
command classifies read-only. -/
theorem claim_C2_counterexample :
    is_bash_read_only defaultConfig "echo hi >out.txt" = true := by decide

/-- Claim C2 (amended): whenever the stripped command line matches the
`REDIR` redirection patterns (the whitespace-delimited operator forms the
code actually recognises), `is_bash_read_only` returns `false` regardless
of the base command. -/
theorem claim_C2_amended (cfg : Config) (command : String)
    (h : redirSearch (pyStrip command.toList) = true) :
    is_bash_read_only cfg command = false := by
  unfold is_bash_read_only
  have hne : (pyStrip command.toList).isEmpty = false := by
    cases hel : pyStrip command.toList with
    | nil => rw [hel] at h; exact absurd h (by decide)
    | cons a t => simp
  simp only [hne, Bool.false_eq_true, if_false, h, if_true]

/-- Claim C2 (witness for the amended theorem): `cat f > g` matches the
redirection patterns and classifies as mutating. -/
theorem claim_C2_witness :
    redirSearch (pyStrip ("cat f > g").toList) = true ∧
      is_bash_read_only defaultConfig "cat f > g" = false :=
  ⟨by decide, claim_C2_amended defaultConfig "cat f > g" (by decide)⟩

/-- Claim C5: in Discussion or Plan mode with bypass off, a Bash command
whose (stripped) command string contains `sessions ` or
`python -m cc_sessions.scripts.api` is admitted immediately with the
state unchanged — before the read-only classifier is consulted, hence
also for mutating commands. -/
theorem claim_C5_api_substring_admitted (env : Env) (cfg : Config)
    (state : SessionsState) (inp : ToolInput)
    (hci : env.ci = false)
    (hmode : state.mode = .no ∨ state.mode = .plan)
    (hbp : state.flags.bypassMode = false)
    (hne : pyStripS inp.command ≠ "")
    (hsub : substrS "sessions " (pyStripS inp.command) = true ∨
      substrS "python -m cc_sessions.scripts.api" (pyStripS inp.command) = true) :
    sessionsEnforce env cfg state "Bash" inp = ⟨.allow, state⟩ := by
  obtain ⟨ci, root, repo, br⟩ := env
  simp only at hci
  subst hci
  unfold sessionsEnforce
  simp only [Bool.false_eq_true, if_false, planToolValue, exitPlanToolValue]
  rw [if_neg (by simp), if_neg (by simp)]
  rw [if_pos (by exact ⟨by trivial, hmode, by simp [hbp]⟩)]
  rw [if_pos ⟨hne, hsub⟩]

/-- Claim C5 (witness): in Discussion mode, the mutating command
`rm -rf sessions backup` contains `sessions ` and is admitted unchanged,
even though the classifier calls it write-like. -/
theorem claim_C5_witness :
    sessionsEnforce baseEnv defaultConfig baseState "Bash"
        { command := "rm -rf sessions backup", filePath := "", todos := [] } =
      ⟨.allow, baseState⟩ ∧
      is_bash_read_only defaultConfig "rm -rf sessions backup" = false :=
  ⟨claim_C5_api_substring_admitted baseEnv defaultConfig baseState _
      (by decide) (Or.inl (by decide)) (by decide) (by decide) (Or.inl (by decide)),
    by decide⟩

/-- Claim C6: when any of the CI environment variables is set, the hook
exits 0 at the very start, so every tool invocation is admitted with the
state untouched, in every mode and for every input. -/
theorem claim_C6_ci_skip (env : Env) (cfg : Config) (state : SessionsState)
    (toolName : String) (inp : ToolInput) (hci : env.ci = true) :
    sessionsEnforce env cfg state toolName inp = ⟨.allow, state⟩ := by
  obtain ⟨ci, root, repo, br⟩ := env
  simp only at hci
  subst hci
  unfold sessionsEnforce
  simp

/-- Claim C6 (witness): with CI set, even a Discussion-mode `Write` to a
source file is admitted. -/
theorem claim_C6_witness :
    sessionsEnforce { baseEnv with ci := true } defaultConfig baseState "Write"
        { command := "", filePath := "x.py", todos := [] } =
      ⟨.allow, baseState⟩ :=
  claim_C6_ci_skip _ defaultConfig baseState "Write" _ (by decide)

/-- Claim C7 (counterexample): the claim says a Bash call whose
`file_path` names `sessions/sessions-state.json` is blocked even when the
generic classifier judges the command read-only; but the guard fires only
on `not is_bash_read_only(command)`, so in Implementation mode the
read-only `cat sessions/sessions-state.json` is admitted. -/
theorem claim_C7_counterexample :
    sessionsEnforce baseEnv defaultConfig { baseState with mode := .go } "Bash"
        { command := "cat sessions/sessions-state.json"
          filePath := "sessions/sessions-state.json", todos := [] } =
      ⟨.allow, { baseState with mode := .go }⟩ ∧
      is_bash_read_only defaultConfig "cat sessions/sessions-state.json" = true := by
  constructor
  · decide
  · decide

/-- Claim C7 (amended): a Bash call whose `file_path` names
`sessions/sessions-state.json` is blocked by the state-file guard exactly
when the generic classifier judges the command write-like (read-only
classified commands pass this guard). -/
theorem claim_C7_amended (env : Env) (cfg : Config) (state : SessionsState)
    (inp : ToolInput)
    (hci : env.ci = false) (hmode : state.mode = .go)
    (hname : namesStateFile (parseFilePath inp.filePath) = true)
    (hcls : is_bash_read_only cfg (pyStripS inp.command) = false) :
    (sessionsEnforce env cfg state "Bash" inp).decision = .block := by
  obtain ⟨ci, root, repo, br⟩ := env
  simp only at hci
  subst hci
  unfold sessionsEnforce
  simp only [Bool.false_eq_true, if_false, planToolValue, exitPlanToolValue]
  rw [if_neg (by simp), if_neg (by simp)]
  rw [if_neg (by rintro ⟨-, hm, -⟩; rw [hmode] at hm; rcases hm with h | h <;> simp at h)]
  rw [if_pos (by exact ⟨by trivial, hname, by simp [hcls]⟩)]

/-- Claim C7 (witness for the amended theorem): in Implementation mode,
the write-like `rm sessions/sessions-state.json` targeting the state file
is blocked. -/
theorem claim_C7_witness :
    (sessionsEnforce baseEnv defaultConfig { baseState with mode := .go } "Bash"
        { command := "rm sessions/sessions-state.json"
          filePath := "sessions/sessions-state.json", todos := [] }).decision =
      .block :=
  claim_C7_amended baseEnv defaultConfig _ _ (by decide) (by decide) (by decide)
    (by decide)

/-- Claim C9 (counterexample): the claim says a missing, corrupt or
unreadable mode state file never lets an exception propagate; but an
OS-level read failure (an unreadable file, e.g. `PermissionError`) is not
in the `except` clause and escapes. -/
theorem claim_C9_counterexample :
    check_daic_mode_bool .ioError = .error .osError := rfl

/-- Claim C9 (amended): if the mode state file is missing or holds
invalid JSON, `check_daic_mode_bool` returns Discussion (`true`) and
writes the Discussion default back, raising nothing; reads that fail with
other OS errors, or valid JSON that is not an object, raise instead. -/
theorem claim_C9_amended (r : StateFileRead)
    (h : r = .missing ∨ r = .notJson) :
    check_daic_mode_bool r = .ok (true, true) := by
  rcases h with h | h <;> subst h <;> rfl

/-- Claim C9 (witness for the amended theorem): the missing-file read
defaults to Discussion and writes the default back. -/
theorem claim_C9_witness :
    check_daic_mode_bool .missing = .ok (true, true) :=
  claim_C9_amended .missing (Or.inl rfl)

/-- Claim C10: a file path that cannot be expressed relative to the
project root (an absolute path outside it) falls back to a substring
test, so any such path whose text contains one of the work-artifact
prefixes is treated as a work artifact, and a
`Write`/`Edit`/`MultiEdit` targeting it in Discussion or Plan mode
(bypass off) is admitted. -/
theorem claim_C10_substring_fallback (env : Env) (cfg : Config)
    (state : SessionsState) (toolName : String) (fp cmd : String) (td : List Todo)
    (hci : env.ci = false)
    (hmode : state.mode = .no ∨ state.mode = .plan)
    (hbp : state.flags.bypassMode = false)
    (htool : toolName = "Write" ∨ toolName = "Edit" ∨ toolName = "MultiEdit")
    (hfp : fp ≠ "")
    (habs : (parsePath fp).absolute = true)
    (hrel : relOk env.projectRoot (parsePath fp) = false)
    (hsub : artifactPrefixes.any (fun pre => substrS pre (pstr (parsePath fp))) = true) :
    is_work_artifact_path env.projectRoot (parseFilePath fp) = true ∧
      sessionsEnforce env cfg state toolName { command := cmd, filePath := fp, todos := td } =
        ⟨.allow, state⟩ := by
  obtain ⟨ci, root, repo, br⟩ := env
  simp only at hci hrel hsub ⊢
  subst hci
  have hart : is_work_artifact_path root (parseFilePath fp) = true := by
    unfold parseFilePath is_work_artifact_path
    rw [if_neg hfp]
    simp only [habs, if_true, hrel, Bool.false_eq_true, if_false]
    exact hsub
  refine ⟨hart, ?_⟩
  have hnb : toolName ≠ "Bash" := by
    rcases htool with h | h | h <;> subst h <;> simp
  have hnp : toolName ≠ planToolValue := by
    rcases htool with h | h | h <;> subst h <;> simp [planToolValue]
  have hne : toolName ≠ exitPlanToolValue := by
    rcases htool with h | h | h <;> subst h <;> simp [exitPlanToolValue]
  unfold sessionsEnforce
  simp only [Bool.false_eq_true, if_false]
  rw [if_neg (by rintro ⟨h, -⟩; exact hnp h)]
  rw [if_neg (by rintro ⟨h, -⟩; exact hne h)]
  rw [if_neg (by rintro ⟨h, -⟩; exact hnb h)]
  rw [if_neg (by rintro ⟨h, -⟩; exact hnb h)]
  rw [if_pos ⟨hmode, by simp [hbp]⟩]
  rw [if_pos ⟨htool, hart⟩]

/-- Claim C3 (counterexample): with agreed active todos `[A, B]`, an
incoming TodoWrite with contents `[A, C]` in Discussion mode (bypass off)
is admitted with the state unchanged (exit 0): the Discussion/Plan-mode
guard disposes of TodoWrite before the consistency comparison, so the
call is neither blocked nor are the todos cleared. -/
theorem claim_C3_counterexample :
    sessionsEnforce baseEnv defaultConfig (stateTodosAB .no) "TodoWrite"
        { command := "", filePath := "", todos := [mkTodo "A", mkTodo "C"] } =
      ⟨.allow, stateTodosAB .no⟩ := by decide

/-- Claim C3 (amended): in Implementation mode (where the Discussion/Plan
guard does not dispose of the call first), with bypass off and a
non-empty stored active list, a TodoWrite whose ordered contents differ
is blocked (exit 2) with the active todos cleared and the mode forced to
Discussion, while a TodoWrite with pointwise-equal contents (status
changes only) is accepted and stored. -/
theorem claim_C3_todo_guard (env : Env) (cfg : Config) (state : SessionsState)
    (inp : ToolInput)
    (hci : env.ci = false) (hmode : state.mode = .go)
    (hbp : state.flags.bypassMode = false)
    (hact : state.todos.active ≠ []) (hfp : inp.filePath = "") :
    (listContent state.todos.active ≠ listContent inp.todos →
      sessionsEnforce env cfg state "TodoWrite" inp =
        ⟨.block, { state with mode := .no
                              todos := { state.todos with active := [] } }⟩) ∧
      (listContent state.todos.active = listContent inp.todos →
        sessionsEnforce env cfg state "TodoWrite" inp =
          ⟨.allow, { state with todos := { state.todos with active := inp.todos } }⟩) := by
  obtain ⟨ci, root, repo, br⟩ := env
  simp only at hci
  subst hci
  have hred : ∀ r : GateResult,
      (if state.todos.active ≠ [] ∧
          listContent state.todos.active ≠ listContent inp.todos then
        (⟨.block, { state with mode := .no
                               todos := { state.todos with active := [] } }⟩ : GateResult)
      else
        tailGate ⟨false, root, repo, br⟩ cfg
          { state with todos := { state.todos with active := inp.todos } }
          "TodoWrite" (parseFilePath inp.filePath)) = r →
      sessionsEnforce ⟨false, root, repo, br⟩ cfg state "TodoWrite" inp = r := by
    intro r hr
    unfold sessionsEnforce
    simp only [Bool.false_eq_true, if_false]
    rw [if_neg (by rintro ⟨h, -⟩; simp [planToolValue] at h)]
    rw [if_neg (by rintro ⟨h, -⟩; simp [exitPlanToolValue] at h)]
    rw [if_neg (by rintro ⟨h, -⟩; simp at h)]
    rw [if_neg (by rintro ⟨h, -⟩; simp at h)]
    rw [if_neg (by rintro ⟨hm, -⟩; rw [hmode] at hm; rcases hm with h | h <;> simp at h)]
    rw [if_pos (by exact ⟨by trivial, by simp [hbp]⟩)]
    exact hr
  constructor
  · intro hdiff
    exact hred _ (by rw [if_pos ⟨hact, hdiff⟩])
  · intro heq
    refine hred _ ?_
    rw [if_neg (by rintro ⟨-, hne⟩; exact hne heq)]
    rw [hfp]
    rfl

/-- Claim C3 (witness for the amended theorem): in Implementation mode,
the drifting update `[A, C]` against agreed `[A, B]` is blocked with the
todos cleared and the mode reset, while the status-only update `[A✓, B]`
is accepted and stored. -/
theorem claim_C3_witness :
    sessionsEnforce baseEnv defaultConfig (stateTodosAB .go) "TodoWrite"
        { command := "", filePath := "", todos := [mkTodo "A", mkTodo "C"] } =
      ⟨.block, { stateTodosAB .go with
                  mode := .no
                  todos := { (stateTodosAB .go).todos with active := [] } }⟩ ∧
      sessionsEnforce baseEnv defaultConfig (stateTodosAB .go) "TodoWrite"
          { command := "", filePath := ""
            todos := [{ content := "A", status := "completed" }, mkTodo "B"] } =
        ⟨.allow, { stateTodosAB .go with
                    todos := { (stateTodosAB .go).todos with
                                active := [{ content := "A", status := "completed" },
                                  mkTodo "B"] } }⟩ :=
  ⟨(claim_C3_todo_guard baseEnv defaultConfig (stateTodosAB .go)
      { command := "", filePath := "", todos := [mkTodo "A", mkTodo "C"] }
      (by decide) (by decide) (by decide) (by decide) (by decide)).1 (by decide),
    (claim_C3_todo_guard baseEnv defaultConfig (stateTodosAB .go)
      { command := "", filePath := ""
        todos := [{ content := "A", status := "completed" }, mkTodo "B"] }
      (by decide) (by decide) (by decide) (by decide) (by decide)).2 (by decide)⟩

/-- Helper for claim C4: a sub-repository whose name is not among the
declared submodules, sitting on the expected branch, lands in the
`NotDeclaredInTask` scenario. -/
theorem branch_scenario_not_declared (projectRoot repo : PyPath)
    (cur exp : String) (subs : List String)
    (hroot : repo ≠ projectRoot)
    (hcon : subs.contains (pathName repo) = false)
    (hbr : cur = exp) :
    branch_scenario projectRoot repo cur exp subs = .notDeclaredInTask := by
  subst hbr
  have hmem : pathName repo ∉ subs := by simpa using hcon
  simp [branch_scenario, hroot, hmem]

/-- Helper for claim C4: the workspace root repository is always treated
as declared, so only branch equality decides its scenario. -/
theorem branch_scenario_root (projectRoot : PyPath) (cur exp : String)
    (subs : List String) :
    branch_scenario projectRoot projectRoot cur exp subs =
      (if cur = exp then .consistent else .wrongBranch) := by
  by_cases hbr : cur = exp <;> simp [branch_scenario, hbr]

/-- Helper for claim C4: with CI off, Implementation mode, a
file-mutating `Write` whose path does not name the state file, a set
non-empty expected branch, branch enforcement on, and git results
available, the gate reduces to the four-way scenario analysis (scenario 1
allows, the other three block). -/
theorem gate_branch_reduction (root : PyPath) (repo : PyPath) (br : String)
    (cfg : Config) (state : SessionsState) (toolName : String)
    (fp cmd : String) (td : List Todo) (exp : String)
    (htool : toolName = "Write" ∨ toolName = "Edit" ∨ toolName = "MultiEdit" ∨
      toolName = "NotebookEdit")
    (hmode : state.mode = .go)
    (hfp : fp ≠ "")
    (hname : pathName (parsePath fp) ≠ "sessions-state.json")
    (hbr : state.currentTask.branch = some exp) (hexp : exp ≠ "")
    (hbe : cfg.features.branchEnforcement = true) :
    sessionsEnforce ⟨false, root, some repo, some br⟩ cfg state toolName
        { command := cmd, filePath := fp, todos := td } =
      (match branch_scenario root repo br exp state.currentTask.submodules with
       | .consistent => ⟨.allow, state⟩
       | _ => ⟨.block, state⟩) := by
  unfold sessionsEnforce
  simp only [Bool.false_eq_true, if_false]
  rw [if_neg (by
    rintro ⟨h, -⟩
    rcases htool with ht | ht | ht | ht <;> rw [ht] at h <;> simp [planToolValue] at h)]
  rw [if_neg (by
    rintro ⟨h, -⟩
    rcases htool with ht | ht | ht | ht <;> rw [ht] at h <;>
      simp [exitPlanToolValue] at h)]
  rw [if_neg (by
    rintro ⟨h, -⟩
    rcases htool with ht | ht | ht | ht <;> rw [ht] at h <;> simp at h)]
  rw [if_neg (by
    rintro ⟨h, -⟩
    rcases htool with ht | ht | ht | ht <;> rw [ht] at h <;> simp at h)]
  rw [if_neg (by rintro ⟨hm, -⟩; rw [hmode] at hm; rcases hm with h | h <;> simp at h)]
  rw [if_neg (by
    rintro ⟨h, -⟩
    rcases htool with ht | ht | ht | ht <;> rw [ht] at h <;> simp at h)]
  show tailGate _ _ _ _ (parseFilePath fp) = _
  rw [show parseFilePath fp = some (parsePath fp) from by
    unfold parseFilePath; rw [if_neg hfp]]
  rw [tailGate]
  rw [if_neg (by rintro ⟨-, hn, -⟩; exact hname hn)]
  rw [hbr, branchGate]
  rw [if_neg hexp, if_neg (by simp [hbe])]
  rw [show (⟨false, root, some repo, some br⟩ : Env).gitRepo = some repo from rfl,
    repoGate]
  rw [show (⟨false, root, some repo, some br⟩ : Env).gitBranch = some br from rfl,
    show (⟨false, root, some repo, some br⟩ : Env).projectRoot = root from rfl,
    branchResultGate]

/-- Claim C4: for a file-mutating tool call with the expected branch set
and branch enforcement enabled, a sub-repository whose name is not in the
declared submodules is blocked even on the expected branch
(`NotDeclaredInTask`), while the workspace root repository is always
treated as declared, so for it branch equality alone decides allow
(Consistent) versus block (WrongBranch). -/
theorem claim_C4_branch_enforcement (root repo : PyPath) (br : String)
    (cfg : Config) (state : SessionsState) (toolName : String)
    (fp cmd : String) (td : List Todo) (exp : String)
    (htool : toolName = "Write" ∨ toolName = "Edit" ∨ toolName = "MultiEdit" ∨
      toolName = "NotebookEdit")
    (hmode : state.mode = .go)
    (hfp : fp ≠ "")
    (hname : pathName (parsePath fp) ≠ "sessions-state.json")
    (hbr : state.currentTask.branch = some exp) (hexp : exp ≠ "")
    (hbe : cfg.features.branchEnforcement = true) :
    (repo ≠ root → state.currentTask.submodules.contains (pathName repo) = false →
      br = exp →
      (sessionsEnforce ⟨false, root, some repo, some br⟩ cfg state toolName
          { command := cmd, filePath := fp, todos := td }).decision = .block) ∧
      (repo = root →
        ((sessionsEnforce ⟨false, root, some repo, some br⟩ cfg state toolName
            { command := cmd, filePath := fp, todos := td }).decision = .allow ↔
          br = exp)) := by
  have hred := gate_branch_reduction root repo br cfg state toolName fp cmd td exp
    htool hmode hfp hname hbr hexp hbe
  constructor
  · intro hroot hcon hbreq
    rw [hred, branch_scenario_not_declared root repo br exp _ hroot hcon hbreq]
  · intro hroot
    subst hroot
    rw [hred, branch_scenario_root]
    by_cases hce : br = exp
    · rw [if_pos hce]
      simp [hce]
    · rw [if_neg hce]
      simp [hce]

/-- Claim C4 (witness): with expected branch `feature/x` and declared
submodules `[svcA]`, editing in the undeclared sub-repository
`/proj/svcB` on `feature/x` is blocked, while for the root repository
`/proj` the call is allowed on `feature/x` and blocked on `feature/y`. -/
theorem claim_C4_witness :
    (sessionsEnforce ⟨false, parsePath "/proj", some (parsePath "/proj/svcB"),
          some "feature/x"⟩ defaultConfig
        { baseState with mode := .go
                         currentTask := { branch := some "feature/x"
                                          submodules := ["svcA"] } }
        "Write" { command := "", filePath := "svcB/app.py", todos := [] }).decision =
      .block ∧
      ((sessionsEnforce ⟨false, parsePath "/proj", some (parsePath "/proj"),
            some "feature/x"⟩ defaultConfig
          { baseState with mode := .go
                           currentTask := { branch := some "feature/x"
                                            submodules := ["svcA"] } }
          "Write" { command := "", filePath := "src/app.py", todos := [] }).decision =
        .allow ↔ ("feature/x" : String) = "feature/x") :=
  ⟨(claim_C4_branch_enforcement (parsePath "/proj") (parsePath "/proj/svcB")
      "feature/x" defaultConfig _ "Write" "svcB/app.py" "" [] "feature/x"
      (Or.inl rfl) (by decide) (by decide) (by decide) (by decide) (by decide)
      (by decide)).1 (by decide) (by decide) (by decide),
    (claim_C4_branch_enforcement (parsePath "/proj") (parsePath "/proj")
      "feature/x" defaultConfig _ "Write" "src/app.py" "" [] "feature/x"
      (Or.inl rfl) (by decide) (by decide) (by decide) (by decide) (by decide)
      (by decide)).2 (by decide)⟩

/-- Claim C10 (witness): in Discussion mode, `Write` to
`/tmp/mydocs/f.py` — absolute, outside the `/proj` root, and containing
the substring `docs/` — is treated as a work artifact and admitted. -/
theorem claim_C10_witness :
    is_work_artifact_path baseEnv.projectRoot (parseFilePath "/tmp/mydocs/f.py") = true ∧
      sessionsEnforce baseEnv defaultConfig baseState "Write"
          { command := "", filePath := "/tmp/mydocs/f.py", todos := [] } =
        ⟨.allow, baseState⟩ :=
  claim_C10_substring_fallback baseEnv defaultConfig baseState "Write"
    "/tmp/mydocs/f.py" "" [] (by decide) (Or.inl (by decide)) (by decide)
    (Or.inl rfl) (by decide) (by decide) (by decide) (by decide)

/-! ## The split of a compound line (towards claim C8) -/

/-- The split scanner treats a character that is neither `|` nor `&` as
ordinary. -/
theorem splitSegsGo_cons_other (prev : Option Char) (acc : List Char)
    (c : Char) (l : List Char) (h1 : c ≠ '|') (h2 : c ≠ '&') :
    splitSegsGo prev acc (c :: l) = splitSegsGo (some c) (c :: acc) l := by
  cases l with
  | nil => simp [splitSegsGo, h1, h2]
  | cons d rest => simp [splitSegsGo, h1, h2]

/-- Scanning a run of ordinary characters accumulates them and moves the
look-behind to the run's last character. -/
theorem splitSegsGo_consume (g : List Char)
    (hg : ∀ c ∈ g, c ≠ '|' ∧ c ≠ '&') :
    ∀ (prev : Option Char) (acc suffix : List Char),
      splitSegsGo prev acc (g ++ suffix) =
        splitSegsGo (prevAfter prev g) (g.reverse ++ acc) suffix := by
  induction g with
  | nil => intro prev acc suffix; simp [prevAfter]
  | cons c g' ih =>
    intro prev acc suffix
    have hc := hg c (by simp)
    rw [List.cons_append, splitSegsGo_cons_other prev acc c _ hc.1 hc.2]
    rw [ih (fun x hx => hg x (by simp [hx])) (some c) (c :: acc) suffix]
    simp [prevAfter, List.foldl_cons]

/-- The look-behind after a run of non-`|` characters is not `|`. -/
theorem prevAfter_ne_pipe (g : List Char) (hg : ∀ c ∈ g, c ≠ '|')
    (prev : Option Char) (hp : prev ≠ some '|') :
    prevAfter prev g ≠ some '|' := by
  induction g generalizing prev with
  | nil => exact hp
  | cons c g' ih =>
    have : prevAfter prev (c :: g') = prevAfter (some c) g' := rfl
    rw [this]
    exact ih (fun x hx => hg x (by simp [hx])) (some c)
      (by intro h; exact hg c (by simp) (by simpa using h))

/-- Scanning the separators-and-segments tail of a compound line produces
exactly the expected pieces. -/
theorem splitSegsGo_joinRest (rest : List (Sep × List Char))
    (hr : ∀ pg ∈ rest, ∀ c ∈ pg.2, c ≠ '|' ∧ c ≠ '&') :
    ∀ (acc : List Char) (prev : Option Char), prev ≠ some '|' →
      splitSegsGo prev acc (joinRestL rest) = expectedPieces acc.reverse rest := by
  induction rest with
  | nil => intro acc prev _; rfl
  | cons pg t ih =>
    obtain ⟨p, g⟩ := pg
    intro acc prev hprev
    have hgc : ∀ c ∈ g, c ≠ '|' ∧ c ≠ '&' := hr (p, g) (by simp)
    have hgp : ∀ c ∈ g, c ≠ '|' := fun c hc => (hgc c hc).1
    have htc : ∀ pg ∈ t, ∀ c ∈ pg.2, c ≠ '|' ∧ c ≠ '&' :=
      fun pg hpg => hr pg (by simp [hpg])
    have hafter : prevAfter (some ' ') g ≠ some '|' :=
      prevAfter_ne_pipe g hgp (some ' ') (by simp)
    have htail : splitSegsGo (some ' ') [' '] (g ++ joinRestL t) =
        expectedPieces (' ' :: g) t := by
      rw [splitSegsGo_consume g hgc (some ' ') [' '] (joinRestL t)]
      rw [ih htc (g.reverse ++ [' ']) _ hafter]
      simp
    cases p with
    | pipe =>
      show splitSegsGo prev acc (' ' :: '|' :: ' ' :: (g ++ joinRestL t)) = _
      rw [splitSegsGo_cons_other prev acc ' ' _ (by decide) (by decide)]
      show (' ' :: acc).reverse ::
          splitSegsGo (some '|') [] (' ' :: (g ++ joinRestL t)) = _
      rw [splitSegsGo_cons_other (some '|') [] ' ' _ (by decide) (by decide)]
      rw [htail]
      simp [expectedPieces]
    | andand =>
      show splitSegsGo prev acc (' ' :: '&' :: '&' :: ' ' :: (g ++ joinRestL t)) = _
      rw [splitSegsGo_cons_other prev acc ' ' _ (by decide) (by decide)]
      show (' ' :: acc).reverse ::
          splitSegsGo (some '&') [] (' ' :: (g ++ joinRestL t)) = _
      rw [splitSegsGo_cons_other (some '&') [] ' ' _ (by decide) (by decide)]
      rw [htail]
      simp [expectedPieces]
    | oror =>
      show splitSegsGo prev acc (' ' :: '|' :: '|' :: ' ' :: (g ++ joinRestL t)) = _
      rw [splitSegsGo_cons_other prev acc ' ' _ (by decide) (by decide)]
      show (' ' :: acc).reverse ::
          splitSegsGo (some '|') [] (' ' :: (g ++ joinRestL t)) = _
      rw [splitSegsGo_cons_other (some '|') [] ' ' _ (by decide) (by decide)]
      rw [htail]
      simp [expectedPieces]

/-- A string with no `|` and no `&` splits into itself alone. -/
theorem splitSegs_single (g : List Char) (hg : ∀ c ∈ g, c ≠ '|' ∧ c ≠ '&') :
    splitSegs g = [g] := by
  unfold splitSegs
  rw [show g = g ++ [] by simp]
  rw [splitSegsGo_consume g (by simpa using hg) none [] []]
  simp [splitSegsGo]

/-! ## Redirection-free strings -/

/-- `dropDigits` keeps a subset of the characters. -/
theorem mem_of_mem_dropDigits (l : List Char) (c : Char)
    (h : c ∈ dropDigits l) : c ∈ l := by
  induction l with
  | nil => simp [dropDigits] at h
  | cons a t ih =>
    by_cases ha : a.isDigit
    · rw [dropDigits, List.dropWhile_cons_of_pos ha] at h
      exact List.mem_cons_of_mem a (ih h)
    · rw [dropDigits, List.dropWhile_cons_of_neg ha] at h
      exact h

/-- No redirection alternative matches at a position holding neither `>`
nor `<`. -/
theorem redirAt_eq_false (l : List Char)
    (h : ∀ c ∈ l, c ≠ '>' ∧ c ≠ '<') : redirAt l = false := by
  have hgt : gtMatch l = false := by
    cases l with
    | nil => rfl
    | cons c rest => simp [gtMatch, (h c (by simp)).1]
  have hlt : ltMatch l = false := by
    cases l with
    | nil => rfl
    | cons c rest => simp [ltMatch, (h c (by simp)).2]
  have hp2 : pat2At l = false := by
    unfold pat2At
    cases hd : dropDigits l with
    | nil => rfl
    | cons c rest =>
      have hc : c ∈ l := mem_of_mem_dropDigits l c (by rw [hd]; simp)
      simp [(h c hc).1]
  have hp3 : pat3At l = false := by
    cases l with
    | nil => rfl
    | cons c rest =>
      cases rest with
      | nil => rfl
      | cons d rest2 => simp [pat3At, (h d (by simp)).1]
  simp [redirAt, hgt, hlt, hp2, hp3]

/-- `REDIR` finds nothing in a string holding neither `>` nor `<`. -/
theorem redirSearch_eq_false (l : List Char)
    (h : ∀ c ∈ l, c ≠ '>' ∧ c ≠ '<') : redirSearch l = false := by
  have hgo : ∀ m : List Char, (∀ c ∈ m, c ≠ '>' ∧ c ≠ '<') →
      redirSearchGo m = false := by
    intro m
    induction m with
    | nil => intro _; rfl
    | cons c rest ih =>
      intro hm
      have h1 : redirAt rest = false :=
        redirAt_eq_false rest (fun x hx => hm x (by simp [hx]))
      have h2 : redirSearchGo rest = false := ih (fun x hx => hm x (by simp [hx]))
      simp [redirSearchGo, h1, h2]
  simp [redirSearch, redirAt_eq_false l h, hgo l h]

/-- A plain-segment character is not special. -/
theorem segChar_spec (c : Char) (h : segChar c = true) :
    c ≠ '|' ∧ c ≠ '&' ∧ c ≠ '<' ∧ c ≠ '>' := by
  simp only [segChar, Bool.not_eq_true', Bool.or_eq_false_iff,
    decide_eq_false_iff_not] at h
  exact ⟨h.1.1.1, h.1.1.2, h.1.2, h.2⟩

/-- Every character of a joined compound line of plain segments is
neither `>` nor `<`. -/
theorem joinRest_chars (rest : List (Sep × List Char))
    (hr : ∀ pg ∈ rest, ∀ c ∈ pg.2, segChar c = true) :
    ∀ c ∈ joinRestL rest, c ≠ '>' ∧ c ≠ '<' := by
  induction rest with
  | nil => intro c hc; simp [joinRestL] at hc
  | cons pg t ih =>
    obtain ⟨p, g⟩ := pg
    intro c hc
    rw [joinRestL, List.append_assoc, List.mem_append] at hc
    rcases hc with hsep | hrest
    · constructor <;> intro hceq <;> subst hceq <;> cases p <;>
        simp [sepChars] at hsep
    · rw [List.mem_append] at hrest
      rcases hrest with hg | ht
      · have := segChar_spec c (hr (p, g) (by simp) c hg)
        exact ⟨this.2.2.2, this.2.2.1⟩
      · exact ih (fun pg hpg => hr pg (by simp [hpg])) c ht

/-! ## Stripping around plain segments -/

/-- Prepending to a non-empty list keeps its head. -/
theorem headOkB_append (l r : List Char) (h : l ≠ []) :
    headOkB (l ++ r) = headOkB l := by
  cases l with
  | nil => exact absurd rfl h
  | cons c t => rfl

/-- A `headOkB` list survives `dropWhile` whitespace. -/
theorem dropWhile_eq_self_of_headOk (l : List Char) (h : headOkB l = true) :
    l.dropWhile pyIsSpace = l := by
  cases l with
  | nil => simp [headOkB] at h
  | cons c t =>
    simp only [headOkB, Bool.not_eq_true'] at h
    rw [List.dropWhile_cons_of_neg (by simp [h])]

/-- A trimmed list is fixed by `strip`. -/
theorem pyStrip_eq_self (l : List Char) (h1 : headOkB l = true)
    (h2 : headOkB l.reverse = true) : pyStrip l = l := by
  unfold pyStrip
  rw [dropWhile_eq_self_of_headOk l h1, dropWhile_eq_self_of_headOk l.reverse h2,
    List.reverse_reverse]

/-- `strip` absorbs a leading space. -/
theorem pyStrip_cons_space (l : List Char) : pyStrip (' ' :: l) = pyStrip l := by
  unfold pyStrip
  rw [List.dropWhile_cons_of_pos (by decide)]

/-- `strip` absorbs a trailing space. -/
theorem pyStrip_append_space (l : List Char) : pyStrip (l ++ [' ']) = pyStrip l := by
  unfold pyStrip
  rw [List.dropWhile_append]
  by_cases he : (l.dropWhile pyIsSpace).isEmpty
  · rw [if_pos he]
    rw [List.isEmpty_iff] at he
    rw [he]
    decide
  · rw [if_neg he]
    rw [List.reverse_append]
    rw [show (([' '] : List Char).reverse ++ (l.dropWhile pyIsSpace).reverse) =
      ' ' :: (l.dropWhile pyIsSpace).reverse from rfl]
    rw [List.dropWhile_cons_of_pos (by decide)]

/-- The tail of a compound line is never empty. -/
theorem joinRestL_ne_nil (p : Sep) (g : List Char) (t : List (Sep × List Char)) :
    joinRestL ((p, g) :: t) ≠ [] := by
  cases p <;> simp [joinRestL, sepChars]

/-- The last character of the tail of a compound line of trimmed
non-empty segments is the last character of its last segment. -/
theorem headOkB_reverse_joinRest (rest : List (Sep × List Char))
    (hr : ∀ pg ∈ rest, headOkB pg.2.reverse = true ∧ pg.2 ≠ [])
    (hne : rest ≠ []) : headOkB (joinRestL rest).reverse = true := by
  induction rest with
  | nil => exact absurd rfl hne
  | cons pg t ih =>
    obtain ⟨p, g⟩ := pg
    have hg := hr (p, g) (by simp)
    rw [joinRestL]
    cases t with
    | nil =>
      rw [joinRestL, List.append_nil, List.reverse_append]
      rw [headOkB_append _ _ (by simpa using hg.2)]
      exact hg.1
    | cons pg2 t2 =>
      rw [List.reverse_append]
      rw [headOkB_append _ _ (by simpa using joinRestL_ne_nil pg2.1 pg2.2 t2)]
      exact ih (fun qg hqg => hr qg (by simp [hqg])) (by simp)

/-! ## The segment loop as a conjunction -/

/-- With the extra-safe flag effective (its default), the segment loop is
the conjunction of the per-piece classifications. -/
theorem loopSegs_eq_all (cfg : Config) (hex : effExtrasafe cfg = true)
    (ps : List (List Char)) : loopSegs cfg ps = ps.all (pieceOK cfg) := by
  induction ps with
  | nil => rfl
  | cons p t ih =>
    by_cases he : (pyStrip p).isEmpty
    · simp [loopSegs, he, ih, pieceOK, pieceCore]
    · cases hs : shlexSplit (pyStrip p) with
      | none => simp [loopSegs, he, hs, hex, pieceOK, pieceCore]
      | some parts =>
        by_cases hchk : segCheck cfg parts <;>
          simp [loopSegs, he, hs, hchk, ih, pieceOK, pieceCore]

/-- The per-piece classifications of the expected pieces are the
per-segment classifications: the padding spaces are stripped away. -/
theorem expectedPieces_all (cfg : Config) (t : List (Sep × List Char)) :
    ∀ a : List Char,
      (expectedPieces a t).all (pieceOK cfg) =
        (pieceOK cfg a && t.all (fun pg => pieceOK cfg pg.2)) := by
  induction t with
  | nil => intro a; simp [expectedPieces]
  | cons pg t ih =>
    obtain ⟨p, g⟩ := pg
    intro a
    rw [expectedPieces, List.all_cons, ih (' ' :: g)]
    have h1 : pieceOK cfg (a ++ [' ']) = pieceOK cfg a := by
      unfold pieceOK; rw [pyStrip_append_space]
    have h2 : pieceOK cfg (' ' :: g) = pieceOK cfg g := by
      unfold pieceOK; rw [pyStrip_cons_space]
    rw [h1, h2, List.all_cons]

/-- Componentwise `all` congruence over the members of a list. -/
theorem all_congr_mem {α : Type} (l : List α) (f g : α → Bool)
    (h : ∀ x ∈ l, f x = g x) : l.all f = l.all g := by
  induction l with
  | nil => rfl
  | cons a t ih =>
    rw [List.all_cons, List.all_cons, h a (by simp),
      ih (fun x hx => h x (by simp [hx]))]

/-- `all` over the token-level image of a segment list. -/
theorem all_map_snd (cfg : Config) (rest : List (Sep × String)) :
    (rest.map (fun pg => (pg.1, pg.2.toList))).all (fun pg => pieceOK cfg pg.2) =
      rest.all (fun pg => pieceOK cfg pg.2.toList) := by
  induction rest with
  | nil => rfl
  | cons a t ih => simp only [List.map_cons, List.all_cons, ih]

/-- A plain segment is non-empty. -/
theorem goodSegL_ne_nil (g : List Char) (h : goodSegL g = true) : g ≠ [] := by
  intro he
  subst he
  simp [goodSegL, headOkB] at h

/-- The three components of `goodSegL`. -/
theorem goodSegL_parts (g : List Char) (h : goodSegL g = true) :
    headOkB g = true ∧ headOkB g.reverse = true ∧ ∀ c ∈ g, segChar c = true := by
  simp only [goodSegL, Bool.and_eq_true, List.all_eq_true] at h
  exact ⟨h.1.1, h.1.2, h.2⟩

/-- On a plain segment, `is_bash_read_only` computes the single-segment
loop body. -/
theorem is_bash_read_only_plain (cfg : Config) (hex : effExtrasafe cfg = true)
    (s : String) (hg : goodSegL s.toList = true) :
    is_bash_read_only cfg s = pieceCore cfg s.toList := by
  obtain ⟨hh, hl, hall⟩ := goodSegL_parts s.toList hg
  have hchars : ∀ c ∈ s.toList, c ≠ '|' ∧ c ≠ '&' := fun c hc =>
    ⟨(segChar_spec c (hall c hc)).1, (segChar_spec c (hall c hc)).2.1⟩
  have hgl : ∀ c ∈ s.toList, c ≠ '>' ∧ c ≠ '<' := fun c hc =>
    ⟨(segChar_spec c (hall c hc)).2.2.2, (segChar_spec c (hall c hc)).2.2.1⟩
  unfold is_bash_read_only
  rw [pyStrip_eq_self s.toList hh hl]
  rw [if_neg (by simp only [List.isEmpty_iff]; exact goodSegL_ne_nil _ hg)]
  rw [if_neg (by
    rw [redirSearch_eq_false s.toList hgl]
    simp)]
  rw [splitSegs_single s.toList hchars]
  rw [loopSegs_eq_all cfg hex]
  simp only [List.all_cons, List.all_nil, Bool.and_true]
  unfold pieceOK
  rw [pyStrip_eq_self s.toList hh hl]

/-- Claim C8: a compound line built from plain segments (no redirection
characters, no split characters) joined only by `|`, `&&`, `||`
classifies read-only exactly when every segment independently classifies
read-only — so one mutating segment anywhere makes the whole line
mutating (stated under the effective extra-safe default of the
classifier). -/
theorem claim_C8_compound_classification (cfg : Config) (s0 : String)
    (rest : List (Sep × String))
    (hex : effExtrasafe cfg = true)
    (h0 : goodSeg s0 = true) (hr : ∀ pg ∈ rest, goodSeg pg.2 = true) :
    is_bash_read_only cfg (joinLine s0 rest) =
      (is_bash_read_only cfg s0 && rest.all (fun pg => is_bash_read_only cfg pg.2)) := by
  obtain ⟨hh0, hl0, hall0⟩ := goodSegL_parts s0.toList h0
  have h0ne : s0.toList ≠ [] := goodSegL_ne_nil s0.toList h0
  have hrL : ∀ pg ∈ rest.map (fun pg => (pg.1, pg.2.toList)), goodSegL pg.2 = true := by
    intro pg hpg
    rw [List.mem_map] at hpg
    obtain ⟨qg, hq, rfl⟩ := hpg
    exact hr qg hq
  have hchars0 : ∀ c ∈ s0.toList, c ≠ '|' ∧ c ≠ '&' := fun c hc =>
    ⟨(segChar_spec c (hall0 c hc)).1, (segChar_spec c (hall0 c hc)).2.1⟩
  have hgl0 : ∀ c ∈ s0.toList, c ≠ '>' ∧ c ≠ '<' := fun c hc =>
    ⟨(segChar_spec c (hall0 c hc)).2.2.2, (segChar_spec c (hall0 c hc)).2.2.1⟩
  have hglJ : ∀ c ∈ joinRestL (rest.map (fun pg => (pg.1, pg.2.toList))),
      c ≠ '>' ∧ c ≠ '<' :=
    joinRest_chars _ (fun pg hpg => (goodSegL_parts pg.2 (hrL pg hpg)).2.2)
  have hgl : ∀ c ∈ s0.toList ++ joinRestL (rest.map (fun pg => (pg.1, pg.2.toList))),
      c ≠ '>' ∧ c ≠ '<' := by
    intro c hc
    rw [List.mem_append] at hc
    rcases hc with hc | hc
    · exact hgl0 c hc
    · exact hglJ c hc
  have hheadJ : headOkB (s0.toList ++
      joinRestL (rest.map (fun pg => (pg.1, pg.2.toList)))) = true := by
    rw [headOkB_append _ _ h0ne]; exact hh0
  have hlastJ : headOkB (s0.toList ++
      joinRestL (rest.map (fun pg => (pg.1, pg.2.toList)))).reverse = true := by
    cases hrest : rest.map (fun pg => (pg.1, pg.2.toList)) with
    | nil => simp only [hrest, joinRestL, List.append_nil]; exact hl0
    | cons pg2 t2 =>
      rw [List.reverse_append]
      rw [headOkB_append _ _ (by
        simpa using joinRestL_ne_nil pg2.1 pg2.2 t2)]
      rw [← hrest]
      refine headOkB_reverse_joinRest _ ?_ (by rw [hrest]; simp)
      intro pg hpg
      exact ⟨(goodSegL_parts pg.2 (hrL pg hpg)).2.1, goodSegL_ne_nil pg.2 (hrL pg hpg)⟩
  have hsplit : splitSegs (s0.toList ++
      joinRestL (rest.map (fun pg => (pg.1, pg.2.toList)))) =
      expectedPieces s0.toList (rest.map (fun pg => (pg.1, pg.2.toList))) := by
    unfold splitSegs
    rw [splitSegsGo_consume s0.toList hchars0 none []]
    rw [splitSegsGo_joinRest _
      (fun pg hpg => fun c hc =>
        ⟨(segChar_spec c ((goodSegL_parts pg.2 (hrL pg hpg)).2.2 c hc)).1,
          (segChar_spec c ((goodSegL_parts pg.2 (hrL pg hpg)).2.2 c hc)).2.1⟩)
      _ _
      (prevAfter_ne_pipe s0.toList (fun c hc => (hchars0 c hc).1) none (by simp))]
    simp
  have hLHS : is_bash_read_only cfg (joinLine s0 rest) =
      (pieceOK cfg s0.toList &&
        (rest.map (fun pg => (pg.1, pg.2.toList))).all (fun pg => pieceOK cfg pg.2)) := by
    show (let s := pyStrip (s0.toList ++
        joinRestL (rest.map (fun pg => (pg.1, pg.2.toList))));
      if s.isEmpty then true
      else if redirSearch s then false
      else loopSegs cfg (splitSegs s)) = _
    rw [pyStrip_eq_self _ hheadJ hlastJ]
    rw [if_neg (by
      simp only [List.isEmpty_eq_true, List.append_eq_nil]
      rintro ⟨h1, -⟩
      exact h0ne h1)]
    rw [if_neg (by
      have hred : redirSearch (s0.data ++
          joinRestL (List.map (fun pg => (pg.1, pg.2.data)) rest)) = false :=
        redirSearch_eq_false _ hgl
      simp [hred])]
    rw [hsplit, loopSegs_eq_all cfg hex, expectedPieces_all cfg]
  rw [hLHS]
  have hfirst : pieceOK cfg s0.toList = is_bash_read_only cfg s0 := by
    rw [is_bash_read_only_plain cfg hex s0 h0]
    unfold pieceOK
    rw [pyStrip_eq_self s0.toList hh0 hl0]
  rw [hfirst]
  congr 1
  rw [all_map_snd cfg rest]
  refine all_congr_mem rest _ _ ?_
  intro pg hpg
  show pieceOK cfg pg.2.toList = is_bash_read_only cfg pg.2
  have hgood := hr pg hpg
  obtain ⟨hhp, hlp, -⟩ := goodSegL_parts pg.2.toList hgood
  rw [is_bash_read_only_plain cfg hex pg.2 hgood]
  unfold pieceOK
  rw [pyStrip_eq_self pg.2.toList hhp hlp]

/-- Claim C8 (witness): `cat f | grep x && sort` — all three segments
read-only — classifies read-only, and replacing the last segment by
`rm x` makes the whole line mutating. -/
theorem claim_C8_witness :
    (is_bash_read_only defaultConfig
        (joinLine "cat f" [(Sep.pipe, "grep x"), (Sep.andand, "sort")]) =
      (is_bash_read_only defaultConfig "cat f" &&
        ([(Sep.pipe, "grep x"), (Sep.andand, "sort")] : List (Sep × String)).all
          (fun pg => is_bash_read_only defaultConfig pg.2))) ∧
      (is_bash_read_only defaultConfig
          (joinLine "cat f" [(Sep.pipe, "grep x"), (Sep.andand, "rm x")]) =
        (is_bash_read_only defaultConfig "cat f" &&
          ([(Sep.pipe, "grep x"), (Sep.andand, "rm x")] : List (Sep × String)).all
            (fun pg => is_bash_read_only defaultConfig pg.2))) ∧
      is_bash_read_only defaultConfig
        (joinLine "cat f" [(Sep.pipe, "grep x"), (Sep.andand, "sort")]) = true ∧
      is_bash_read_only defaultConfig
        (joinLine "cat f" [(Sep.pipe, "grep x"), (Sep.andand, "rm x")]) = false :=
  ⟨claim_C8_compound_classification defaultConfig "cat f"
      [(Sep.pipe, "grep x"), (Sep.andand, "sort")] (by decide) (by decide) (by decide),
    claim_C8_compound_classification defaultConfig "cat f"
      [(Sep.pipe, "grep x"), (Sep.andand, "rm x")] (by decide) (by decide) (by decide),
    by decide, by decide⟩

end CcSessions
